import Mathlib

set_option maxRecDepth 100000

/-!
Verification of the prmaker pull-request CLI (src/main.rs, src/pr.rs).
The Rust sources are shallowly embedded: the regex-based parsers become
explicit scanning functions over `List Char`, interactive stdin loops
become recursive functions over a list of input lines, and the remote
forge is an oracle supplied in an environment record.
-/

namespace Prmaker

/-- Character class `\w` of the Rust regexes (ASCII fragment). -/
def isWordChar (c : Char) : Bool := c.isAlphanum || c = '_'

/-- Character class `[\w-]` of the Rust regexes. -/
def isWordDashChar (c : Char) : Bool := isWordChar c || c = '-'

/-- Whitespace recognised by Rust `str::trim` (ASCII fragment). -/
def isRustWs (c : Char) : Bool :=
  c = ' ' || c = '\t' || c = '\n' || c = '\r' || c = Char.ofNat 11 || c = Char.ofNat 12

/-- Trim whitespace from both ends of a character list, as `str::trim`. -/
def trimChars (l : List Char) : List Char :=
  ((l.dropWhile isRustWs).reverse.dropWhile isRustWs).reverse

/-- Rust `str::trim` on strings. -/
def rustTrim (s : String) : String := String.mk (trimChars s.data)

/-- Embedding of `get_base` (identical in src/main.rs and src/pr.rs):
leftmost match of the regex `:([\w-]+)/`, returning capture group 1.
The scan looks for a colon followed by a nonempty greedy `[\w-]` run
followed by a slash; on failure the scan resumes one position later. -/
def get_base : List Char → Option (List Char)
  | [] => none
  | c :: rest =>
    if c = ':' ∧ rest.takeWhile isWordDashChar ≠ [] ∧
        (rest.dropWhile isWordDashChar).head? = some '/' then
      some (rest.takeWhile isWordDashChar)
    else get_base rest

/-- The optional-suffix test of `(.git)?$` in src/pr.rs REPO_REGEX: the
remainder after the capture run must be empty, or one arbitrary
non-newline character followed by `git` and end of input. -/
def tailOkPr (rest : List Char) : Bool :=
  match rest with
  | [] => true
  | [c, 'g', 'i', 't'] => c ≠ '\n'
  | _ => false

/-- Greedy backtracking over the `[\w-]+` capture run of src/pr.rs
REPO_REGEX: try run lengths from `k` down to 1. -/
def tryRunPr (t : List Char) : Nat → Option (List Char)
  | 0 => none
  | k + 1 => if tailOkPr (t.drop (k + 1)) then some (t.take (k + 1)) else tryRunPr t k

/-- Match src/pr.rs REPO_REGEX `/([\w-]+)(.git)?$` at a fixed position just
after a slash. -/
def matchRepoAtPr (t : List Char) : Option (List Char) :=
  tryRunPr t (t.takeWhile isWordDashChar).length

/-- Embedding of `get_repo` from src/pr.rs: leftmost match of
`/([\w-]+)(.git)?$`, returning capture group 1. -/
def get_repo : List Char → Option (List Char)
  | [] => none
  | c :: rest =>
    if c = '/' ∧ (matchRepoAtPr rest).isSome then matchRepoAtPr rest
    else get_repo rest

/-- The `.git` test of src/main.rs REPO_REGEX `/([\w-]+).git` (dot is any
non-newline character, no end anchor): the remainder after the capture run
must start with one non-newline character followed by `git`. -/
def tailOkMain (rest : List Char) : Bool :=
  match rest with
  | c :: 'g' :: 'i' :: 't' :: _ => c ≠ '\n'
  | _ => false

/-- Greedy backtracking over the `[\w-]+` capture run of src/main.rs
REPO_REGEX. -/
def tryRunMain (t : List Char) : Nat → Option (List Char)
  | 0 => none
  | k + 1 => if tailOkMain (t.drop (k + 1)) then some (t.take (k + 1)) else tryRunMain t k

/-- Match src/main.rs REPO_REGEX at a fixed position just after a slash. -/
def matchRepoAtMain (t : List Char) : Option (List Char) :=
  tryRunMain t (t.takeWhile isWordDashChar).length

/-- Embedding of `get_repo` from src/main.rs: leftmost match of
`/([\w-]+).git`, returning capture group 1. -/
def get_repo_main : List Char → Option (List Char)
  | [] => none
  | c :: rest =>
    if c = '/' ∧ (matchRepoAtMain rest).isSome then matchRepoAtMain rest
    else get_repo_main rest

/-- Embedding of `get_yt_issue_from_branch_name` (identical in
src/main.rs and src/pr.rs): anchored match of `^\w+/(\w+-\d+)`,
returning capture group 1.  Greedy `\w+` runs are `takeWhile` since the
following literal (`/` resp. `-`) is never a word character, and `\d+`
is the greedy digit run with no end anchor. -/
def get_yt_issue_from_branch_name (b : List Char) : Option (List Char) :=
  if b.takeWhile isWordChar ≠ [] ∧ (b.dropWhile isWordChar).head? = some '/' then
    if ((b.dropWhile isWordChar).tail).takeWhile isWordChar ≠ [] ∧
        (((b.dropWhile isWordChar).tail).dropWhile isWordChar).head? = some '-' then
      if ((((b.dropWhile isWordChar).tail).dropWhile isWordChar).tail).takeWhile
          Char.isDigit ≠ [] then
        some (((b.dropWhile isWordChar).tail).takeWhile isWordChar ++
          '-' :: ((((b.dropWhile isWordChar).tail).dropWhile
            isWordChar).tail).takeWhile Char.isDigit)
      else none
    else none
  else none

/-- Embedding of `build_full_pr_body` (identical in src/main.rs and
src/pr.rs): the fixed Markdown template with the body and issue
substituted. -/
def build_full_pr_body (title yt_issue : String) : String :=
  "### What does this PR do?\n\n" ++ title ++
  "\n\n<!--\nPlease include a summary of the change and/or which issue is fixed. Please also include relevant motivation and context. List any dependencies that are required for this change, also provide (if appropriate) any evidence - screenshots, gifs, logs, etc.\n\nOh, remember to follow conventional commits (https://conventionalcommits.org) on pull request title ;)\n-->\n\n---\n\n**Related issue:** " ++
  yt_issue ++ "\n"

/-- Rust `str::parse::<usize>`: an optional leading plus sign, then a
nonempty run of ASCII decimal digits, rejecting values that overflow a
64-bit usize.  A leading minus sign is an invalid digit for an unsigned
type. -/
def stripPlusSign (cs : List Char) : List Char :=
  if cs.head? = some '+' then cs.tail else cs

/-- Rust `str::parse::<usize>`, continued: digits after the optional
sign, with the 64-bit overflow bound. -/
def parseUsize (s : String) : Option Nat :=
  let cs := stripPlusSign s.data
  if cs = [] then none
  else if cs.all Char.isDigit then
    let n := cs.foldl (fun acc c => acc * 10 + (c.toNat - '0'.toNat)) 0
    if n < 2 ^ 64 then some n else none
  else none

/-- Embedding of the `Reviewer` struct of src/main.rs. -/
structure Reviewer where
  username : String
  index : Nat
  selected : Bool
deriving DecidableEq, Repr

/-- Embedding of `get_reviewers`: enumerate the fetched members into
`Reviewer` records with `selected = false`. -/
def get_reviewers (logins : List String) : List Reviewer :=
  (logins.enum).map fun p => { username := p.2, index := p.1, selected := false }

/-- The `iter_mut().find(...)` mutation of `get_selected_reviewers`:
toggle the `selected` flag of the first reviewer whose `index` equals
the given number; leave the list unchanged when none matches. -/
def toggleFirst : List Reviewer → Nat → List Reviewer
  | [], _ => []
  | r :: rest, i =>
    if r.index = i then { r with selected := !r.selected } :: rest
    else r :: toggleFirst rest i

/-- The message printed by one iteration of the selection loop. -/
inductive SelMsg where
  | toggled
  | notFound
  | invalid
deriving DecidableEq, Repr

/-- One non-empty iteration of the `get_selected_reviewers` loop body:
parse the trimmed input as `usize`; on success toggle the matching
reviewer or report that none matches; on parse failure report an invalid
option.  The state is returned together with the message. -/
def selStep (rs : List Reviewer) (inp : String) : List Reviewer × SelMsg :=
  match parseUsize (rustTrim inp) with
  | some i =>
    if rs.any (fun r => r.index = i) then (toggleFirst rs i, .toggled)
    else (rs, .notFound)
  | none => (rs, .invalid)

/-- The `get_selected_reviewers` loop over a list of stdin lines: an
empty (trimmed) line exits the loop; at end of input `read_line` yields
an empty string, which also exits.  Returns the final reviewer state and
the unconsumed input. -/
def selLoop : List String → List Reviewer → List Reviewer × List String
  | [], rs => (rs, [])
  | s :: rest, rs =>
    if rustTrim s = "" then (rs, rest)
    else selLoop rest (selStep rs s).1

/-- Embedding of `get_selected_reviewers`: run the loop from the
enumerated candidates and keep the selected ones. -/
def get_selected_reviewers (stdin : List String) (logins : List String) :
    List Reviewer × List String :=
  let r := selLoop stdin (get_reviewers logins)
  (r.1.filter (fun x => x.selected), r.2)

/-- Result of the confirmation-gate loop of `main`. -/
inductive GateResult where
  | proceed (rest : List String)
  | abortExit (rest : List String)
  | hang
deriving DecidableEq, Repr

/-- The confirmation-gate loop of `main`: read a line, trim it; `y`
breaks out of the loop, `n` exits the process with code 0, anything else
re-prompts.  When stdin is exhausted every further read yields an empty
line, which re-prompts forever: the loop never terminates (`hang`). -/
def gateLoop : List String → GateResult
  | [] => .hang
  | s :: rest =>
    if rustTrim s = "y" then .proceed rest
    else if rustTrim s = "n" then .abortExit rest
    else gateLoop rest

/-- Reading one line of stdin: at end of input `read_line` reads zero
bytes and the buffer stays empty. -/
def readLine : List String → String × List String
  | [] => ("", [])
  | s :: rest => (s, rest)

/-- The parts of the forge-returned `html_url` used by `get_pr_link`:
scheme, host and path are kept, query and fragment are discarded. -/
structure Url where
  scheme : String
  host : String
  path : String
  query : Option String
  fragment : Option String
deriving DecidableEq, Repr

/-- Embedding of `get_pr_link`: recompose scheme, host and path of the
forge-returned URL, discarding query and fragment. -/
def get_pr_link (u : Url) : String := u.scheme ++ "://" ++ u.host ++ u.path

/-- Embedding of the `PR` struct of src/pr.rs. -/
structure PR where
  branch : String
  title : String
  yt_issue : String
  body : String
  full_body : String
  link : Option String
  number : Option Nat
  base : String
  repo : String
deriving DecidableEq, Repr

/-- Embedding of `get_yt_issue` of src/pr.rs: try the branch-name
pattern; on failure fall back to one interactive prompt.  The third
component counts how many fallback prompts were issued. -/
def get_yt_issue (branch : String) (stdin : List String) :
    String × List String × Nat :=
  match get_yt_issue_from_branch_name branch.data with
  | some i => (String.mk i, stdin, 0)
  | none =>
    let r := readLine stdin
    (rustTrim r.1, r.2, 1)

/-- Embedding of `PR::build` of src/pr.rs, with the interactive reads
and the external git commands turned into parameters: `titleInput`,
`ytInput` and `bodyInput` are the lines read from stdin, `lastCommit`
the last commit subject.  Returns `none` when a remote-URL regex fails
(an `expect` panic in the source). -/
def PR.build (remoteUrl branch lastCommit titleInput ytInput bodyInput : String) :
    Option PR :=
  match get_base remoteUrl.data, get_repo remoteUrl.data with
  | some b, some r =>
    let title := if rustTrim titleInput = "" then lastCommit else rustTrim titleInput
    let yt :=
      match get_yt_issue_from_branch_name branch.data with
      | some i => String.mk i
      | none => rustTrim ytInput
    let body := if rustTrim bodyInput = "" then "Title" else rustTrim bodyInput
    some
      { branch := branch, title := title, yt_issue := yt, body := body,
        full_body := build_full_pr_body body yt, link := none, number := none,
        base := String.mk b, repo := String.mk r }
  | _, _ => none

/-- The forge's answer to the create call, as matched by `PR::create`:
a successful response carrying the PR number and optional html URL, a
forge-reported GitHub error, or any other (transport-level) error. -/
inductive CreateResp where
  | ok (number : Nat) (html_url : Option Url)
  | githubErr (msg : String)
  | transportErr
deriving DecidableEq, Repr

/-- Embedding of `PR::create` of src/pr.rs: on a successful response set
`number` and `link` from the forge response and return `Ok`; on a
forge-reported error leave the draft unchanged and return `Err`; on a
transport error, or when `html_url` is absent (the unwrap inside
`get_pr_link`), the source panics, modelled as `none`.  The boolean is
`true` for `Ok(())` and `false` for `Err(())`. -/
def PR.create (pr : PR) (resp : CreateResp) : Option (PR × Bool) :=
  match resp with
  | .ok n (some u) =>
    some ({ pr with number := some n, link := some (get_pr_link u) }, true)
  | .ok _ none => none
  | .githubErr _ => some (pr, false)
  | .transportErr => none

/-- Embedding of `PR::assign_self` of src/pr.rs: it calls
`self.number.unwrap()`, which panics (`none`) when `number` is unset;
otherwise the call's success or failure is only printed.  The draft
itself is never modified (`&self`). -/
def PR.assign_self (pr : PR) (assignOk : Bool) : Option Bool :=
  match pr.number with
  | none => none
  | some _ => some assignOk

/-- Observable events of one run of `main` (src/main.rs): remote forge
calls, warnings printed on post-creation failures, the reviewer-selection
prompt, and the printed PR links. -/
inductive Ev where
  | callCreate
  | printCreatedLink (link : String)
  | callAssign
  | warnAssignFailed
  | callListMembers
  | warnMembersFailed
  | promptReviewers
  | callRequestReviews (users : List String)
  | warnReviewsFailed
  | printFinalLink (link : String)
deriving DecidableEq, Repr

/-- How a run of `main` ends: normal process exit with a code, a Rust
panic (which aborts the process with a non-zero status distinct from an
ordinary exit 1), or an infinite re-prompt loop. -/
inductive Outcome where
  | exited (code : Nat)
  | panicked
  | hangs
deriving DecidableEq, Repr

/-- The forge's answer to the create call as seen by `main` of
src/main.rs; the successful case carries the recomposed PR link. -/
inductive CreateOutcome where
  | ok (number : Nat) (link : String)
  | githubErr (msg : String)
  | transportErr
deriving DecidableEq, Repr

/-- Environment of one run of `main`: credentials, the git-derived
strings, the stdin lines, and the forge oracle for each remote call. -/
structure Env where
  githubUser : Option String
  githubToken : Option String
  remoteUrl : String
  currentBranch : String
  stdin : List String
  createResult : CreateOutcome
  assignOk : Bool
  membersResult : Option (List String)
  reviewOk : Bool
deriving Repr

/-- Result of one run of `main`: the terminal outcome and the trace of
observable events, in program order. -/
structure RunResult where
  outcome : Outcome
  events : List Ev
deriving DecidableEq, Repr

/-- The stdin lines left after the three metadata prompts of `main`
(title, the issue fallback when the branch pattern fails, body); the
confirmation gate reads from this remainder. -/
def stdinAfterPrompts (env : Env) : List String :=
  let s1 := (readLine env.stdin).2
  let s2 :=
    match get_yt_issue_from_branch_name env.currentBranch.data with
    | some _ => s1
    | none => (readLine s1).2
  (readLine s2).2

/-- The part of `main` after a successful PR creation: self-assign
(failure only warns), fetch the organization members (failure warns and
skips selection), otherwise run the selection loop and, for a nonempty
selection, request reviews (failure only warns); finally print the PR
link and return, exiting with code 0.  The member-list fetch outcome is
passed explicitly as `mr`. -/
def postCreate (env : Env) (rest : List String) (link : String)
    (mr : Option (List String)) : RunResult :=
  let evA := [Ev.callAssign] ++ (if env.assignOk then [] else [Ev.warnAssignFailed])
  match mr with
  | none =>
    ⟨.exited 0,
      evA ++ [Ev.callListMembers, Ev.warnMembersFailed, Ev.printFinalLink link]⟩
  | some logins =>
    let sel := get_selected_reviewers rest logins
    let usernames := sel.1.map (fun r => r.username)
    if sel.1 = [] then
      ⟨.exited 0,
        evA ++ [Ev.callListMembers, Ev.promptReviewers, Ev.printFinalLink link]⟩
    else
      ⟨.exited 0,
        evA ++ [Ev.callListMembers, Ev.promptReviewers, Ev.callRequestReviews usernames]
          ++ (if env.reviewOk then [] else [Ev.warnReviewsFailed])
          ++ [Ev.printFinalLink link]⟩

/-- The part of `main` after the confirmation gate accepted: the create
call, whose forge-reported failure exits with code 1, whose transport
failure panics, and whose success prints the link and continues.  The
create outcome is passed explicitly as `cr`. -/
def afterGate (env : Env) (rest : List String) (cr : CreateOutcome) : RunResult :=
  match cr with
  | .githubErr _ => ⟨.exited 1, [Ev.callCreate]⟩
  | .transportErr => ⟨.panicked, [Ev.callCreate]⟩
  | .ok _ link =>
    let r := postCreate env rest link env.membersResult
    ⟨r.outcome, [Ev.callCreate, Ev.printCreatedLink link] ++ r.events⟩

/-- Embedding of `main` of src/main.rs: check the two credential
variables (exit 1 when missing), parse the remote URL (an `expect`
panic when either regex fails), run the metadata prompts and the
confirmation gate (`n` exits 0), then the remote sequence. -/
def runMain (env : Env) : RunResult :=
  match env.githubUser with
  | none => ⟨.exited 1, []⟩
  | some _ =>
    match env.githubToken with
    | none => ⟨.exited 1, []⟩
    | some _ =>
      match get_base env.remoteUrl.data with
      | none => ⟨.panicked, []⟩
      | some _ =>
        match get_repo_main env.remoteUrl.data with
        | none => ⟨.panicked, []⟩
        | some _ =>
          match gateLoop (stdinAfterPrompts env) with
          | .hang => ⟨.hangs, []⟩
          | .abortExit _ => ⟨.exited 0, []⟩
          | .proceed rest => afterGate env rest env.createResult

/-! Helper lemmas on list scans, shared by several claim proofs. -/

theorem takeWhile_append_all {p : Char → Bool} {l₁ : List Char} (l₂ : List Char)
    (h : ∀ c ∈ l₁, p c = true) :
    (l₁ ++ l₂).takeWhile p = l₁ ++ l₂.takeWhile p := by
  induction l₁ with
  | nil => simp
  | cons a t ih =>
    simp only [List.cons_append, List.takeWhile_cons, h a (by simp)]
    simp [ih fun c hc => h c (by simp [hc])]

theorem dropWhile_append_all {p : Char → Bool} {l₁ : List Char} (l₂ : List Char)
    (h : ∀ c ∈ l₁, p c = true) :
    (l₁ ++ l₂).dropWhile p = l₂.dropWhile p := by
  induction l₁ with
  | nil => simp
  | cons a t ih =>
    simp only [List.cons_append, List.dropWhile_cons, h a (by simp)]
    simp [ih fun c hc => h c (by simp [hc])]

theorem takeWhile_cons_neg {p : Char → Bool} {c : Char} (l : List Char)
    (h : p c = false) : (c :: l).takeWhile p = [] := by
  simp [List.takeWhile_cons, h]

theorem dropWhile_cons_neg {p : Char → Bool} {c : Char} (l : List Char)
    (h : p c = false) : (c :: l).dropWhile p = c :: l := by
  simp [List.dropWhile_cons, h]

theorem take_len_append {α : Type} (l₁ l₂ : List α) :
    (l₁ ++ l₂).take l₁.length = l₁ := by
  induction l₁ with
  | nil => simp
  | cons a t ih => simp [ih]

theorem drop_len_append {α : Type} (l₁ l₂ : List α) :
    (l₁ ++ l₂).drop l₁.length = l₂ := by
  induction l₁ with
  | nil => simp
  | cons a t ih => simp [ih]

theorem all_takeWhile {p : Char → Bool} (l : List Char) :
    ∀ c ∈ l.takeWhile p, p c = true := by
  induction l with
  | nil => simp
  | cons a t ih =>
    intro c hc
    rw [List.takeWhile_cons] at hc
    by_cases hp : p a
    · simp [hp] at hc
      rcases hc with h | h
      · simpa [h] using hp
      · exact ih c h
    · simp [hp] at hc

theorem data_append (s t : String) : (s ++ t).data = s.data ++ t.data := rfl

/-- Claim C4: template rendering (build_full_pr_body) is a pure,
deterministic function — identical arguments yield byte-identical
output — and for every body, rendering with an empty issue string
produces output whose bytes end in the template footer
`**Related issue:** ` followed immediately by the closing newline. -/
theorem C4_template_pure_and_footer :
    (∀ b₁ i₁ b₂ i₂ : String, b₁ = b₂ → i₁ = i₂ →
      build_full_pr_body b₁ i₁ = build_full_pr_body b₂ i₂) ∧
    (∀ b : String, ∃ pre : List Char,
      (build_full_pr_body b "").data = pre ++ ("**Related issue:** \n").data) := by
  constructor
  · intro b₁ i₁ b₂ i₂ hb hi
    rw [hb, hi]
  · intro b
    refine ⟨("### What does this PR do?\n\n").data ++ b.data ++
      ("\n\n<!--\nPlease include a summary of the change and/or which issue is fixed. Please also include relevant motivation and context. List any dependencies that are required for this change, also provide (if appropriate) any evidence - screenshots, gifs, logs, etc.\n\nOh, remember to follow conventional commits (https://conventionalcommits.org) on pull request title ;)\n-->\n\n---\n\n").data, ?_⟩
    simp only [build_full_pr_body, data_append, List.append_assoc]
    congr 2

theorem C4_template_pure_and_footer_witness :
    build_full_pr_body "X" "" = build_full_pr_body "X" "" ∧
    ∃ pre : List Char,
      (build_full_pr_body "X" "").data = pre ++ ("**Related issue:** \n").data :=
  ⟨C4_template_pure_and_footer.1 "X" "" "X" "" rfl rfl,
   C4_template_pure_and_footer.2 "X"⟩

/-- Claim C6: in the reviewer selection engine, toggling the candidate
with a given ordinal twice restores the state exactly (involution);
submitting an integer matching no existing ordinal, or an input that
fails to parse as an integer, leaves every candidate unchanged. -/
theorem C6_toggle_involution_and_noop :
    (∀ (rs : List Reviewer) (i : Nat), toggleFirst (toggleFirst rs i) i = rs) ∧
    (∀ (rs : List Reviewer) (s : String) (i : Nat),
      parseUsize (rustTrim s) = some i → (∀ r ∈ rs, r.index ≠ i) →
      selStep rs s = (rs, SelMsg.notFound)) ∧
    (∀ (rs : List Reviewer) (s : String),
      parseUsize (rustTrim s) = none → selStep rs s = (rs, SelMsg.invalid)) := by
  refine ⟨?_, ?_, ?_⟩
  · intro rs i
    induction rs with
    | nil => rfl
    | cons r rest ih =>
      obtain ⟨u, j, sel⟩ := r
      by_cases h : j = i
      · subst h
        simp [toggleFirst]
      · simp [toggleFirst, h, ih]
  · intro rs s i hp hno
    have hany : rs.any (fun r => r.index = i) = false := by
      simp only [List.any_eq_false]
      intro r hr
      simpa using hno r hr
    simp [selStep, hp, hany]
  · intro rs s hp
    simp [selStep, hp]

theorem C6_toggle_involution_and_noop_witness :
    toggleFirst (toggleFirst [⟨"alice", 0, false⟩] 0) 0 = [⟨"alice", 0, false⟩] ∧
    selStep [⟨"alice", 0, false⟩] "5" = ([⟨"alice", 0, false⟩], SelMsg.notFound) ∧
    selStep [⟨"alice", 0, false⟩] "x" = ([⟨"alice", 0, false⟩], SelMsg.invalid) :=
  ⟨C6_toggle_involution_and_noop.1 [⟨"alice", 0, false⟩] 0,
   C6_toggle_involution_and_noop.2.1 [⟨"alice", 0, false⟩] "5" 5 (by decide)
     (by decide),
   C6_toggle_involution_and_noop.2.2 [⟨"alice", 0, false⟩] "x" (by decide)⟩

/-- Claim C10: selection input is parsed as an unsigned integer, so a
negative-number input such as a string whose trimmed form starts with a
minus sign fails to parse, is reported as an invalid option (not as a
missing ordinal), and leaves the reviewer state unchanged. -/
theorem C10_negative_input_is_invalid :
    ∀ (rs : List Reviewer) (s : String),
      (rustTrim s).data.head? = some '-' →
      parseUsize (rustTrim s) = none ∧ selStep rs s = (rs, SelMsg.invalid) := by
  intro rs s h
  obtain ⟨tl, htl⟩ : ∃ tl, (rustTrim s).data = '-' :: tl := by
    cases hd : (rustTrim s).data with
    | nil => rw [hd] at h; cases h
    | cons c tl =>
      rw [hd] at h
      simp only [List.head?] at h
      exact ⟨tl, by rw [Option.some.injEq] at h; rw [h]⟩
  have hparse : parseUsize (rustTrim s) = none := by
    have hstrip : stripPlusSign (rustTrim s).data = '-' :: tl := by
      rw [stripPlusSign, htl]
      rw [if_neg]
      intro hcon
      simp only [List.head?, Option.some.injEq] at hcon
      exact absurd hcon (by decide)
    rw [parseUsize]
    simp only [hstrip]
    rw [if_neg (by simp)]
    rw [if_neg]
    simp only [List.all_cons]
    intro hcon
    have : ('-').isDigit = true := by
      rcases Bool.and_eq_true_iff.mp hcon with ⟨h1, _⟩
      exact h1
    exact absurd this (by decide)
  exact ⟨hparse, by simp [selStep, hparse]⟩

theorem C10_negative_input_is_invalid_witness :
    parseUsize (rustTrim "-1") = none ∧
    selStep [⟨"alice", 0, false⟩] "-1" = ([⟨"alice", 0, false⟩], SelMsg.invalid) :=
  C10_negative_input_is_invalid [⟨"alice", 0, false⟩] "-1" (by decide)

/-- Claim C9: calling PR::assign_self while the draft's number field is
still unset panics via the unwrap on the Option (modelled as `none`);
the step is safe exactly when creation has populated the number.  In
particular a freshly built draft always panics. -/
theorem C9_assign_self_requires_number :
    (∀ (pr : PR) (ok : Bool), pr.number = none → PR.assign_self pr ok = none) ∧
    (∀ (pr : PR) (n : Nat) (ok : Bool), pr.number = some n →
      PR.assign_self pr ok = some ok) ∧
    (∀ (remoteUrl branch lastCommit t y bo : String) (pr : PR) (ok : Bool),
      PR.build remoteUrl branch lastCommit t y bo = some pr →
      PR.assign_self pr ok = none) := by
  refine ⟨?_, ?_, ?_⟩
  · intro pr ok h
    rw [PR.assign_self, h]
  · intro pr n ok h
    rw [PR.assign_self, h]
  · intro remoteUrl branch lastCommit t y bo pr ok h
    rw [PR.build] at h
    split at h
    · rw [Option.some.injEq] at h
      rw [PR.assign_self, ← h]
    · cases h

theorem C9_assign_self_requires_number_witness :
    PR.assign_self ⟨"b", "t", "y", "bo", "f", none, none, "ba", "re"⟩ true = none ∧
    PR.assign_self ⟨"b", "t", "y", "bo", "f", none, some 7, "ba", "re"⟩ true =
      some true :=
  ⟨C9_assign_self_requires_number.1 ⟨"b", "t", "y", "bo", "f", none, none, "ba", "re"⟩
     true rfl,
   C9_assign_self_requires_number.2.1
     ⟨"b", "t", "y", "bo", "f", none, some 7, "ba", "re"⟩ 7 true rfl⟩

/-- Claim C7: the draft's number and link fields are both unset until
the create step succeeds, are then set together by it, and create
changes no other field; a forge-reported create failure leaves the
draft untouched. -/
theorem C7_draft_number_link_invariant :
    (∀ (remoteUrl branch lastCommit t y bo : String) (pr : PR),
      PR.build remoteUrl branch lastCommit t y bo = some pr →
      pr.number = none ∧ pr.link = none) ∧
    (∀ (pr pr' : PR) (n : Nat) (u : Url) (ok : Bool),
      PR.create pr (.ok n (some u)) = some (pr', ok) →
      ok = true ∧ pr'.number = some n ∧ pr'.link = some (get_pr_link u) ∧
      pr'.branch = pr.branch ∧ pr'.title = pr.title ∧
      pr'.yt_issue = pr.yt_issue ∧ pr'.body = pr.body ∧
      pr'.full_body = pr.full_body ∧ pr'.base = pr.base ∧ pr'.repo = pr.repo) ∧
    (∀ (pr pr' : PR) (msg : String) (ok : Bool),
      PR.create pr (.githubErr msg) = some (pr', ok) → pr' = pr ∧ ok = false) := by
  refine ⟨?_, ?_, ?_⟩
  · intro remoteUrl branch lastCommit t y bo pr h
    rw [PR.build] at h
    split at h
    · rw [Option.some.injEq] at h
      rw [← h]
      exact ⟨rfl, rfl⟩
    · cases h
  · intro pr pr' n u ok h
    rw [PR.create] at h
    rw [Option.some.injEq, Prod.mk.injEq] at h
    obtain ⟨h1, h2⟩ := h
    rw [← h1, ← h2]
    refine ⟨rfl, rfl, rfl, rfl, rfl, rfl, rfl, rfl, rfl, rfl⟩
  · intro pr pr' msg ok h
    rw [PR.create] at h
    rw [Option.some.injEq, Prod.mk.injEq] at h
    exact ⟨h.1.symm, h.2.symm⟩

def prDemo : PR :=
  { branch := "feat/A-1", title := "last", yt_issue := "A-1", body := "Title",
    full_body := build_full_pr_body "Title" "A-1", link := none, number := none,
    base := "o", repo := "r" }

theorem C7_draft_number_link_invariant_witness :
    (prDemo.number = none ∧ prDemo.link = none) ∧
    (prDemo = prDemo ∧ false = false) :=
  ⟨C7_draft_number_link_invariant.1 "git@h:o/r.git" "feat/A-1" "last" "" "" ""
     prDemo (by decide),
   C7_draft_number_link_invariant.2.2 prDemo prDemo "dup" false rfl⟩

theorem gateLoop_proceed_inv (l r : List String) (h : gateLoop l = .proceed r) :
    ∃ pre s, l = pre ++ s :: r ∧ rustTrim s = "y" ∧
      ∀ x ∈ pre, rustTrim x ≠ "y" ∧ rustTrim x ≠ "n" := by
  induction l generalizing r with
  | nil => cases h
  | cons s t ih =>
    by_cases h1 : rustTrim s = "y"
    · rw [gateLoop, if_pos h1] at h
      rw [GateResult.proceed.injEq] at h
      exact ⟨[], s, by simp [h], h1, by simp⟩
    · by_cases h2 : rustTrim s = "n"
      · rw [gateLoop, if_neg h1, if_pos h2] at h
        cases h
      · rw [gateLoop, if_neg h1, if_neg h2] at h
        obtain ⟨pre, s', heq, hy, hpre⟩ := ih r h
        refine ⟨s :: pre, s', by rw [heq]; rfl, hy, ?_⟩
        intro x hx
        rcases List.mem_cons.mp hx with hx | hx
        · rw [hx]; exact ⟨h1, h2⟩
        · exact hpre x hx

theorem gateLoop_abort_inv (l r : List String) (h : gateLoop l = .abortExit r) :
    ∃ pre s, l = pre ++ s :: r ∧ rustTrim s = "n" ∧
      ∀ x ∈ pre, rustTrim x ≠ "y" ∧ rustTrim x ≠ "n" := by
  induction l generalizing r with
  | nil => cases h
  | cons s t ih =>
    by_cases h1 : rustTrim s = "y"
    · rw [gateLoop, if_pos h1] at h
      cases h
    · by_cases h2 : rustTrim s = "n"
      · rw [gateLoop, if_neg h1, if_pos h2] at h
        rw [GateResult.abortExit.injEq] at h
        exact ⟨[], s, by simp [h], h2, by simp⟩
      · rw [gateLoop, if_neg h1, if_neg h2] at h
        obtain ⟨pre, s', heq, hn, hpre⟩ := ih r h
        refine ⟨s :: pre, s', by rw [heq]; rfl, hn, ?_⟩
        intro x hx
        rcases List.mem_cons.mp hx with hx | hx
        · rw [hx]; exact ⟨h1, h2⟩
        · exact hpre x hx

/-- Claim C3: the confirmation-gate loop terminates only on input whose
trimmed form is exactly the lowercase accept or abort letter; any other
line (uppercase included) re-prompts with no retry bound; abort exits
the process with code 0; and no forge call of any kind happens unless
the gate accepts. -/
theorem C3_confirmation_gate :
    (∀ l r, gateLoop l = .proceed r →
      ∃ pre s, l = pre ++ s :: r ∧ rustTrim s = "y" ∧
        ∀ x ∈ pre, rustTrim x ≠ "y" ∧ rustTrim x ≠ "n") ∧
    (∀ l r, gateLoop l = .abortExit r →
      ∃ pre s, l = pre ++ s :: r ∧ rustTrim s = "n" ∧
        ∀ x ∈ pre, rustTrim x ≠ "y" ∧ rustTrim x ≠ "n") ∧
    (∀ (s : String) (l : List String), rustTrim s ≠ "y" → rustTrim s ≠ "n" →
      gateLoop (s :: l) = gateLoop l) ∧
    (∀ (env : Env) (u tk : String) (b r : List Char) (rest : List String),
      env.githubUser = some u → env.githubToken = some tk →
      get_base env.remoteUrl.data = some b →
      get_repo_main env.remoteUrl.data = some r →
      gateLoop (stdinAfterPrompts env) = .abortExit rest →
      runMain env = ⟨.exited 0, []⟩) ∧
    (∀ env : Env, (∀ rest, gateLoop (stdinAfterPrompts env) ≠ .proceed rest) →
      (runMain env).events = []) := by
  refine ⟨gateLoop_proceed_inv, gateLoop_abort_inv, ?_, ?_, ?_⟩
  · intro s l h1 h2
    rw [gateLoop, if_neg h1, if_neg h2]
  · intro env u tk b r rest hu ht hb hr hg
    rw [runMain, hu, ht, hb, hr, hg]
  · intro env hno
    rw [runMain]
    cases hu : env.githubUser with
    | none => rfl
    | some u =>
      cases ht : env.githubToken with
      | none => rfl
      | some tk =>
        cases hb : get_base env.remoteUrl.data with
        | none => rfl
        | some b =>
          cases hr : get_repo_main env.remoteUrl.data with
          | none => rfl
          | some r =>
            cases hg : gateLoop (stdinAfterPrompts env) with
            | hang => rfl
            | abortExit rest => rfl
            | proceed rest => exact absurd hg (hno rest)

theorem C3_confirmation_gate_witness :
    gateLoop (["maybe", "Y", "N"] ++ ["y"] ++ []) = gateLoop (["Y", "N"] ++ ["y"]) ∧
    (∃ pre s, (["maybe", "Y", "N", "y"] : List String) = pre ++ s :: [] ∧
      rustTrim s = "y" ∧ ∀ x ∈ pre, rustTrim x ≠ "y" ∧ rustTrim x ≠ "n") :=
  ⟨C3_confirmation_gate.2.2.1 "maybe" ["Y", "N", "y"] (by decide) (by decide),
   C3_confirmation_gate.1 ["maybe", "Y", "N", "y"] [] (by decide)⟩

theorem get_base_at_colon (org rest : List Char) (horg : org ≠ [])
    (hw : ∀ c ∈ org, isWordDashChar c = true) :
    get_base (':' :: (org ++ '/' :: rest)) = some org := by
  have htk : (org ++ '/' :: rest).takeWhile isWordDashChar = org := by
    rw [takeWhile_append_all ('/' :: rest) hw,
      takeWhile_cons_neg rest (by decide), List.append_nil]
  have hdp : (org ++ '/' :: rest).dropWhile isWordDashChar = '/' :: rest := by
    rw [dropWhile_append_all ('/' :: rest) hw, dropWhile_cons_neg rest (by decide)]
  simp only [get_base, htk, hdp]
  simp [horg]

theorem get_base_scan (p : List Char) (tail : List Char)
    (hp : ∀ c ∈ p, c ≠ ':') :
    get_base (p ++ tail) = get_base tail := by
  induction p with
  | nil => rfl
  | cons a q ih =>
    have ha : a ≠ ':' := hp a (by simp)
    rw [List.cons_append]
    simp only [get_base]
    rw [if_neg (fun hcon => ha hcon.1)]
    exact ih fun c hc => hp c (by simp [hc])

theorem matchRepoAtPr_exact (repo suffix : List Char) (hr : repo ≠ [])
    (hw : ∀ c ∈ repo, isWordDashChar c = true)
    (hs : suffix = [] ∨ suffix = ['.', 'g', 'i', 't']) :
    matchRepoAtPr (repo ++ suffix) = some repo := by
  have htk : (repo ++ suffix).takeWhile isWordDashChar = repo := by
    rw [takeWhile_append_all suffix hw]
    rcases hs with h | h
    · rw [h]
      simp
    · rw [h, takeWhile_cons_neg ['g', 'i', 't'] (by decide), List.append_nil]
  obtain ⟨k, hk⟩ : ∃ k, repo.length = k + 1 := by
    cases repo with
    | nil => exact absurd rfl hr
    | cons c cs => exact ⟨cs.length, rfl⟩
  rw [matchRepoAtPr, htk, hk]
  simp only [tryRunPr]
  rw [← hk, drop_len_append, take_len_append]
  rw [if_pos]
  rcases hs with h | h <;> rw [h] <;> decide

theorem get_repo_scan (q t : List Char) (hq : ∀ c ∈ q, c ≠ '/')
    (r : List Char) (h : matchRepoAtPr t = some r) :
    get_repo (q ++ '/' :: t) = some r := by
  induction q with
  | nil =>
    rw [List.nil_append]
    simp only [get_repo]
    simp [h]
  | cons a q' ih =>
    have ha : a ≠ '/' := hq a (by simp)
    rw [List.cons_append]
    simp only [get_repo]
    rw [if_neg (fun hcon => ha hcon.1)]
    exact ih fun c hc => hq c (by simp [hc])

/-- Claim C1 counterexample: on an HTTPS-style remote URL, where no
colon directly precedes the organization segment, `get_base` finds no
match at all (the source panics through `expect`), so the parser does
not return the organization there. -/
theorem C1_remote_parser_counterexample :
    get_base ("https://host/org/repo.git").data = none ∧
    get_base ("https://host/org/repo.git").data ≠ some ("org").data := by
  decide

/-- Claim C1 amended: for SSH-style remote URLs whose prefix contains
neither a colon nor a slash, followed by a colon, the organization, a
slash, the repository name and an optional `.git` suffix, `get_base`
returns the organization and `get_repo` (src/pr.rs) returns the
repository name, with and without the suffix.  HTTPS-style URLs, which
have no colon directly before the organization, make `get_base` panic
(see the counterexample). -/
theorem C1_remote_parser_amended :
    ∀ p org repo suffix : List Char,
      (∀ c ∈ p, c ≠ ':') → (∀ c ∈ p, c ≠ '/') →
      org ≠ [] → (∀ c ∈ org, isWordDashChar c = true) →
      repo ≠ [] → (∀ c ∈ repo, isWordDashChar c = true) →
      (suffix = [] ∨ suffix = ['.', 'g', 'i', 't']) →
      get_base (p ++ (':' :: (org ++ '/' :: (repo ++ suffix)))) = some org ∧
      get_repo (p ++ (':' :: (org ++ '/' :: (repo ++ suffix)))) = some repo := by
  intro p org repo suffix hpc hps horg horgw hrepo hrepow hs
  constructor
  · rw [get_base_scan p _ hpc]
    exact get_base_at_colon org (repo ++ suffix) horg horgw
  · have hq : ∀ c ∈ p ++ ':' :: org, c ≠ '/' := by
      intro c hc
      rcases List.mem_append.mp hc with hc | hc
      · exact hps c hc
      · rcases List.mem_cons.mp hc with hc | hc
        · rw [hc]; decide
        · intro hcon
          have := horgw c hc
          rw [hcon] at this
          exact absurd this (by decide)
    have hshape : p ++ (':' :: (org ++ '/' :: (repo ++ suffix))) =
        (p ++ ':' :: org) ++ '/' :: (repo ++ suffix) := by
      simp
    rw [hshape]
    exact get_repo_scan (p ++ ':' :: org) (repo ++ suffix) hq repo
      (matchRepoAtPr_exact repo suffix hrepo hrepow hs)

theorem C1_remote_parser_amended_witness :
    (get_base (("git@host").data ++ (':' :: (("acme").data ++
        '/' :: (("widgets").data ++ ['.', 'g', 'i', 't'])))) = some ("acme").data ∧
      get_repo (("git@host").data ++ (':' :: (("acme").data ++
        '/' :: (("widgets").data ++ ['.', 'g', 'i', 't'])))) = some ("widgets").data) ∧
    (get_base (("git@host").data ++ (':' :: (("acme").data ++
        '/' :: (("widgets").data ++ [])))) = some ("acme").data ∧
      get_repo (("git@host").data ++ (':' :: (("acme").data ++
        '/' :: (("widgets").data ++ [])))) = some ("widgets").data) :=
  ⟨C1_remote_parser_amended ("git@host").data ("acme").data ("widgets").data
     ['.', 'g', 'i', 't'] (by decide) (by decide) (by decide) (by decide)
     (by decide) (by decide) (Or.inr rfl),
   C1_remote_parser_amended ("git@host").data ("acme").data ("widgets").data
     [] (by decide) (by decide) (by decide) (by decide) (by decide) (by decide)
     (Or.inl rfl)⟩

/-- The claim reads the branch pattern `<word>/<WORD>-<digits>` as
matching the whole branch name, i.e. the regex `^\w+/(\w+-\d+)$` with an
end anchor; this definition follows that reading, for comparison with
the source's extractor, whose regex has no end anchor. -/
def branchPatternSpecFull (b : List Char) : Bool :=
  decide (b.takeWhile isWordChar ≠ []) &&
  ((b.dropWhile isWordChar).head? == some '/') &&
  decide (((b.dropWhile isWordChar).tail).takeWhile isWordChar ≠ []) &&
  ((((b.dropWhile isWordChar).tail).dropWhile isWordChar).head? == some '-') &&
  decide (((((b.dropWhile isWordChar).tail).dropWhile isWordChar).tail) ≠ []) &&
  ((((b.dropWhile isWordChar).tail).dropWhile isWordChar).tail).all Char.isDigit

/-- Claim C5 counterexample: a branch name that does not match the
claimed pattern as a whole (trailing character after the digits) still
makes the extractor return an issue key, because the source regex is
anchored only at the start; the claim's "returns None for every
non-matching branch" is therefore false at this input. -/
theorem C5_issue_extractor_counterexample :
    branchPatternSpecFull ("feat/ABC-123x").data = false ∧
    get_yt_issue_from_branch_name ("feat/ABC-123x").data = some ("ABC-123").data := by
  decide

theorem head_not_digit_takeWhile (rest : List Char)
    (h : ∀ c, rest.head? = some c → c.isDigit = false) :
    rest.takeWhile Char.isDigit = [] := by
  cases rest with
  | nil => rfl
  | cons c rs => exact takeWhile_cons_neg rs (h c rfl)

/-- Claim C5 amended: the issue regex is anchored only at the start of
the branch name, so the extractor returns `<WORD>-<digits>` for every
branch that begins with `<word>/<WORD>-<digits>` (whether or not more
characters follow the digits), and returns None exactly for branches
with no such prefix; in the None case the interactive fallback prompt
is triggered exactly once. -/
theorem C5_issue_extractor_amended :
    (∀ t code ds rest : List Char,
      t ≠ [] → (∀ c ∈ t, isWordChar c = true) →
      code ≠ [] → (∀ c ∈ code, isWordChar c = true) →
      ds ≠ [] → (∀ c ∈ ds, c.isDigit = true) →
      (∀ c, rest.head? = some c → c.isDigit = false) →
      get_yt_issue_from_branch_name (t ++ ('/' :: (code ++ ('-' :: (ds ++ rest)))))
        = some (code ++ '-' :: ds)) ∧
    (∀ b k, get_yt_issue_from_branch_name b = some k →
      ∃ t code ds rest, b = t ++ ('/' :: (code ++ ('-' :: (ds ++ rest)))) ∧
        t ≠ [] ∧ (∀ c ∈ t, isWordChar c = true) ∧
        code ≠ [] ∧ (∀ c ∈ code, isWordChar c = true) ∧
        ds ≠ [] ∧ (∀ c ∈ ds, c.isDigit = true) ∧
        k = code ++ '-' :: ds) ∧
    (∀ (branch : String) (stdin : List String),
      (get_yt_issue_from_branch_name branch.data = none →
        (get_yt_issue branch stdin).2.2 = 1) ∧
      (∀ k, get_yt_issue_from_branch_name branch.data = some k →
        (get_yt_issue branch stdin).2.2 = 0)) := by
  refine ⟨?_, ?_, ?_⟩
  · intro t code ds rest ht htw hcode hcodew hds hdsw hrest
    have htk : (t ++ ('/' :: (code ++ ('-' :: (ds ++ rest))))).takeWhile isWordChar
        = t := by
      rw [takeWhile_append_all _ htw, takeWhile_cons_neg _ (by decide),
        List.append_nil]
    have hdp : (t ++ ('/' :: (code ++ ('-' :: (ds ++ rest))))).dropWhile isWordChar
        = '/' :: (code ++ ('-' :: (ds ++ rest))) := by
      rw [dropWhile_append_all _ htw, dropWhile_cons_neg _ (by decide)]
    have htk2 : (code ++ ('-' :: (ds ++ rest))).takeWhile isWordChar = code := by
      rw [takeWhile_append_all _ hcodew, takeWhile_cons_neg _ (by decide),
        List.append_nil]
    have hdp2 : (code ++ ('-' :: (ds ++ rest))).dropWhile isWordChar
        = '-' :: (ds ++ rest) := by
      rw [dropWhile_append_all _ hcodew, dropWhile_cons_neg _ (by decide)]
    have htk3 : (ds ++ rest).takeWhile Char.isDigit = ds := by
      rw [takeWhile_append_all _ hdsw, head_not_digit_takeWhile rest hrest,
        List.append_nil]
    rw [get_yt_issue_from_branch_name]
    simp only [htk, hdp, List.tail_cons, List.head?_cons, htk2, hdp2, htk3]
    simp [ht, hcode, hds]
  · intro b k h
    rw [get_yt_issue_from_branch_name] at h
    split at h
    case isFalse => cases h
    case isTrue hc1 =>
      split at h
      case isFalse => cases h
      case isTrue hc2 =>
        split at h
        case isFalse => cases h
        case isTrue hc3 =>
          rw [Option.some.injEq] at h
          obtain ⟨ht1, hh1⟩ := hc1
          obtain ⟨ht2, hh2⟩ := hc2
          set T := b.dropWhile isWordChar with hT
          have hTcons : T = '/' :: T.tail := by
            cases hTc : T with
            | nil => rw [hTc] at hh1; cases hh1
            | cons c cs =>
              rw [hTc] at hh1
              simp only [List.head?_cons, Option.some.injEq] at hh1
              rw [hh1]
              rfl
          set D := T.tail.dropWhile isWordChar with hD
          have hDcons : D = '-' :: D.tail := by
            cases hDc : D with
            | nil => rw [hDc] at hh2; cases hh2
            | cons c cs =>
              rw [hDc] at hh2
              simp only [List.head?_cons, Option.some.injEq] at hh2
              rw [hh2]
              rfl
          refine ⟨b.takeWhile isWordChar, T.tail.takeWhile isWordChar,
            D.tail.takeWhile Char.isDigit, D.tail.dropWhile Char.isDigit,
            ?_, ht1, all_takeWhile b, ht2, all_takeWhile T.tail, hc3,
            all_takeWhile D.tail, h.symm⟩
          conv_lhs => rw [← List.takeWhile_append_dropWhile (p := isWordChar) (l := b)]
          rw [← hT, hTcons]
          congr 1
          conv_lhs => rw [← List.takeWhile_append_dropWhile (p := isWordChar)
            (l := T.tail)]
          rw [← hD, hDcons]
          congr 2
          rw [List.tail_cons]
          congr 1
          exact (List.takeWhile_append_dropWhile Char.isDigit D.tail).symm
  · intro branch stdin
    constructor
    · intro h
      simp [get_yt_issue, h]
    · intro k h
      simp [get_yt_issue, h]

theorem C5_issue_extractor_amended_witness :
    get_yt_issue_from_branch_name
        (("feat").data ++ ('/' :: (("ABC").data ++ ('-' :: (("123").data ++ [])))))
      = some (("ABC").data ++ '-' :: ("123").data) ∧
    (get_yt_issue "main" ["PROJ-7"]).2.2 = 1 :=
  ⟨C5_issue_extractor_amended.1 ("feat").data ("ABC").data ("123").data []
     (by decide) (by decide) (by decide) (by decide) (by decide) (by decide)
     (by intro c hc; cases hc),
   (C5_issue_extractor_amended.2.2 "main" ["PROJ-7"]).1 (by decide)⟩

/-- Claim C2: every failure after a successful PR creation (self-assign
failure, member-list fetch failure, review-request failure) only prints
a warning; the workflow continues without unwinding any prior step, the
PR link is the last thing printed, and the process exits with code 0.
A member-list fetch failure additionally skips reviewer selection and
the review request entirely. -/
theorem C2_post_creation_degradations :
    ∀ (env : Env) (u tk : String) (b r : List Char) (rest : List String)
      (n : Nat) (link : String),
      env.githubUser = some u → env.githubToken = some tk →
      get_base env.remoteUrl.data = some b →
      get_repo_main env.remoteUrl.data = some r →
      gateLoop (stdinAfterPrompts env) = .proceed rest →
      env.createResult = .ok n link →
      (runMain env).outcome = .exited 0 ∧
      (runMain env).events.getLast? = some (.printFinalLink link) ∧
      (env.assignOk = false → Ev.warnAssignFailed ∈ (runMain env).events) ∧
      (env.membersResult = none →
        Ev.warnMembersFailed ∈ (runMain env).events ∧
        Ev.promptReviewers ∉ (runMain env).events ∧
        ∀ us, Ev.callRequestReviews us ∉ (runMain env).events) ∧
      (∀ logins, env.membersResult = some logins → env.reviewOk = false →
        (get_selected_reviewers rest logins).1 ≠ [] →
        Ev.warnReviewsFailed ∈ (runMain env).events) := by
  intro env u tk b r rest n link hu ht hb hr hg hc
  have hrun : runMain env =
      ⟨(postCreate env rest link env.membersResult).outcome,
        [Ev.callCreate, Ev.printCreatedLink link] ++
          (postCreate env rest link env.membersResult).events⟩ := by
    rw [runMain, hu, ht, hb, hr, hg, hc]
    rfl
  rw [hrun]
  cases hm : env.membersResult with
  | none =>
    cases ha : env.assignOk <;>
      simp [postCreate, ha, List.getLast?]
  | some logins =>
    cases hsel : (get_selected_reviewers rest logins).1 with
    | nil =>
      cases ha : env.assignOk <;>
        simp [postCreate, ha, hsel, List.getLast?]
    | cons r0 rs =>
      cases ha : env.assignOk <;> cases hrev : env.reviewOk <;>
        simp [postCreate, ha, hrev, hsel, List.getLast?]

def envDemo : Env :=
  { githubUser := some "me", githubToken := some "tok",
    remoteUrl := "git@h:o/r.git", currentBranch := "feat/A-1",
    stdin := ["", "", "y"], createResult := .ok 5 "https://h/o/r/pull/5",
    assignOk := false, membersResult := none, reviewOk := true }

theorem C2_post_creation_degradations_witness :
    (runMain envDemo).outcome = .exited 0 ∧
    Ev.warnAssignFailed ∈ (runMain envDemo).events ∧
    Ev.warnMembersFailed ∈ (runMain envDemo).events ∧
    Ev.promptReviewers ∉ (runMain envDemo).events :=
  have h := C2_post_creation_degradations envDemo "me" "tok" ("o").data ("r").data
    [] 5 "https://h/o/r/pull/5" rfl rfl (by decide) (by decide) (by decide) rfl
  ⟨h.1, h.2.2.1 rfl, (h.2.2.2.1 rfl).1, (h.2.2.2.1 rfl).2.1⟩

/-- Claim C8 counterexample: with both credentials present but a
malformed remote URL (no colon before the organization segment), the
run ends in a Rust panic from `expect`, which is a process abort and
not an ordinary exit with code 1, contradicting the claimed exit code
of exactly 1 for a malformed remote URL. -/
def envMalformed : Env :=
  { githubUser := some "me", githubToken := some "tok",
    remoteUrl := "nocolonurl", currentBranch := "b", stdin := ["y"],
    createResult := .githubErr "e", assignOk := true,
    membersResult := none, reviewOk := true }

theorem C8_exit_codes_counterexample :
    (runMain envMalformed).outcome = .panicked ∧
    Outcome.panicked ≠ Outcome.exited 1 := by
  constructor
  · rfl
  · decide

/-- Claim C8 amended: the exit code is 0 when the operator aborts at
the confirmation gate or the workflow completes (even degraded), and 1
when a credential is missing or the forge reports a fatal error during
creation; a malformed remote URL however aborts the process through a
panic (`expect`), not through an exit with code 1. -/
theorem C8_exit_codes_amended :
    (∀ env : Env, env.githubUser = none → (runMain env).outcome = .exited 1) ∧
    (∀ (env : Env) (u : String), env.githubUser = some u →
      env.githubToken = none → (runMain env).outcome = .exited 1) ∧
    (∀ (env : Env) (u tk : String), env.githubUser = some u →
      env.githubToken = some tk → get_base env.remoteUrl.data = none →
      (runMain env).outcome = .panicked) ∧
    (∀ (env : Env) (u tk : String) (b r : List Char) (rest : List String),
      env.githubUser = some u → env.githubToken = some tk →
      get_base env.remoteUrl.data = some b →
      get_repo_main env.remoteUrl.data = some r →
      gateLoop (stdinAfterPrompts env) = .abortExit rest →
      (runMain env).outcome = .exited 0) ∧
    (∀ (env : Env) (u tk : String) (b r : List Char) (rest : List String)
      (msg : String),
      env.githubUser = some u → env.githubToken = some tk →
      get_base env.remoteUrl.data = some b →
      get_repo_main env.remoteUrl.data = some r →
      gateLoop (stdinAfterPrompts env) = .proceed rest →
      env.createResult = .githubErr msg →
      (runMain env).outcome = .exited 1) ∧
    (∀ (env : Env) (u tk : String) (b r : List Char) (rest : List String)
      (n : Nat) (link : String),
      env.githubUser = some u → env.githubToken = some tk →
      get_base env.remoteUrl.data = some b →
      get_repo_main env.remoteUrl.data = some r →
      gateLoop (stdinAfterPrompts env) = .proceed rest →
      env.createResult = .ok n link →
      (runMain env).outcome = .exited 0) := by
  refine ⟨?_, ?_, ?_, ?_, ?_, ?_⟩
  · intro env h
    rw [runMain, h]
  · intro env u hu ht
    rw [runMain, hu, ht]
  · intro env u tk hu ht hb
    rw [runMain, hu, ht, hb]
  · intro env u tk b r rest hu ht hb hr hg
    rw [runMain, hu, ht, hb, hr, hg]
  · intro env u tk b r rest msg hu ht hb hr hg hc
    rw [runMain, hu, ht, hb, hr, hg, hc]
    rfl
  · intro env u tk b r rest n link hu ht hb hr hg hc
    have hrun : (runMain env).outcome =
        (postCreate env rest link env.membersResult).outcome := by
      rw [runMain, hu, ht, hb, hr, hg, hc]
      rfl
    rw [hrun]
    cases hm : env.membersResult with
    | none => simp [postCreate]
    | some logins =>
      cases hsel : (get_selected_reviewers rest logins).1 with
      | nil => simp [postCreate, hsel]
      | cons r0 rs => simp [postCreate, hsel]

def envNoCreds : Env :=
  { githubUser := none, githubToken := none, remoteUrl := "",
    currentBranch := "", stdin := [], createResult := .githubErr "e",
    assignOk := true, membersResult := none, reviewOk := true }

def envAbortGate : Env :=
  { githubUser := some "me", githubToken := some "tok",
    remoteUrl := "git@h:o/r.git", currentBranch := "feat/A-1",
    stdin := ["", "", "n"], createResult := .githubErr "e",
    assignOk := true, membersResult := none, reviewOk := true }

def envCreateErr : Env :=
  { githubUser := some "me", githubToken := some "tok",
    remoteUrl := "git@h:o/r.git", currentBranch := "feat/A-1",
    stdin := ["", "", "y"], createResult := .githubErr "e",
    assignOk := true, membersResult := none, reviewOk := true }

theorem C8_exit_codes_amended_witness :
    (runMain envNoCreds).outcome = .exited 1 ∧
    (runMain envAbortGate).outcome = .exited 0 ∧
    (runMain envCreateErr).outcome = .exited 1 :=
  ⟨C8_exit_codes_amended.1 envNoCreds rfl,
   C8_exit_codes_amended.2.2.2.1 envAbortGate "me" "tok" ("o").data ("r").data []
     rfl rfl (by decide) (by decide) (by decide),
   C8_exit_codes_amended.2.2.2.2.1 envCreateErr "me" "tok" ("o").data ("r").data
     [] "e" rfl rfl (by decide) (by decide) (by decide) rfl⟩

end Prmaker
